import Mathlib

/-!
# Mix2Go streaming core: a shallow embedding

This file embeds the streaming core of the Mix2Go plug-in
(`source/Streaming/AudioPacket.h`, `ThreadSafeFIFO.h`, `NetworkSender.h`,
`AudioStreamManager.h`) into Lean and proves properties of the embedding.

Modelling conventions:
* bytes are `Nat`s below 256; a byte buffer is a `List Nat`;
* 32-bit float samples on the wire are represented by their bit pattern,
  a `Nat` below `2^32` (serialization is a pure `memcpy` of the bits, so
  bit patterns are exactly what round-trips);
* in-memory samples (ring buffer, silence gate) are represented by `ℚ`,
  keeping the exact comparison structure of the code;
* machine integers (`uint16_t`/`uint32_t`/`uint64_t`) are `Nat`s with
  explicit `% 2^w` at the points where the code can wrap;
* the C++ out-parameter of `AudioPacket::deserialize` is modelled by
  passing the initial packet in and returning the (possibly partially
  mutated) packet next to the success flag.
-/

namespace Mix2Go

/-! ## Little-endian byte encoding -/

/-- Little-endian encoding of `n` into `w` bytes (the effect of
`memcpy` from an integer of width `w` on a little-endian host). -/
def leBytes : Nat → Nat → List Nat
  | 0, _ => []
  | w + 1, n => n % 256 :: leBytes w (n / 256)

/-- Little-endian decoding of a byte list (the effect of `memcpy`
into an integer on a little-endian host). -/
def leDecode : List Nat → Nat
  | [] => 0
  | b :: bs => b + 256 * leDecode bs

/-! ## The packet codec (`AudioPacket.h`) -/

/-- The wire-format magic constant `0x4D324730` ("M2G0"),
`AudioPacket::MAGIC`. -/
def MAGIC : Nat := 0x4D324730

/-- `AudioPacket::HEADER_SIZE`: bytes before the audio data. -/
def HEADER_SIZE : Nat := 26

/-- The `AudioPacket` record.  `audioData` holds the bit patterns of the
interleaved 32-bit floats. -/
structure AudioPacket where
  magic : Nat
  sampleRate : Nat
  numChannels : Nat
  numSamples : Nat
  timestamp : Nat
  sequenceNumber : Nat
  audioData : List Nat
  deriving Repr, DecidableEq

/-- The member initializers of `struct AudioPacket`. -/
def AudioPacket.default : AudioPacket :=
  { magic := MAGIC
    sampleRate := 44100
    numChannels := 2
    numSamples := 0
    timestamp := 0
    sequenceNumber := 0
    audioData := [] }

/-- Field-width well-formedness: each field fits its declared C type. -/
def AudioPacket.WF (p : AudioPacket) : Prop :=
  p.magic < 2 ^ 32 ∧ p.sampleRate < 2 ^ 32 ∧ p.numChannels < 2 ^ 16 ∧
  p.numSamples < 2 ^ 32 ∧ p.timestamp < 2 ^ 64 ∧ p.sequenceNumber < 2 ^ 32 ∧
  ∀ x ∈ p.audioData, x < 2 ^ 32

instance (p : AudioPacket) : Decidable p.WF := by
  unfold AudioPacket.WF; infer_instance

/-- `AudioPacket::serialize`: header fields in declaration order, then
the interleaved samples, four bytes each, all little-endian. -/
def serialize (p : AudioPacket) : List Nat :=
  leBytes 4 p.magic ++ leBytes 4 p.sampleRate ++ leBytes 2 p.numChannels ++
  leBytes 4 p.numSamples ++ leBytes 8 p.timestamp ++
  leBytes 4 p.sequenceNumber ++ (p.audioData.map (leBytes 4)).flatten

/-- Reads `w` bytes at offset `off` and decodes them little-endian
(the `memcpy` into a header field inside `deserialize`). -/
def readLE (bs : List Nat) (off w : Nat) : Nat :=
  leDecode ((bs.drop off).take w)

/-- Regroups the payload into 32-bit floats:
`numFloats = audioBytes / 4`, trailing remainder bytes dropped. -/
def decodeFloats : List Nat → List Nat
  | b0 :: b1 :: b2 :: b3 :: rest => leDecode [b0, b1, b2, b3] :: decodeFloats rest
  | _ => []

/-- `AudioPacket::deserialize(data, size, outPacket)`.  The C++ function
takes the output packet by reference and returns a `bool`; we pass the
initial value of the out-parameter in and return the flag with the final
value.  Mirrors the control flow of the source: length check, magic read
*into the out-packet* then checked, remaining header fields, then the
payload floats, with `audioData` resized only when `numFloats > 0`. -/
def deserialize (bs : List Nat) (out : AudioPacket) : Bool × AudioPacket :=
  if bs.length < HEADER_SIZE then (false, out)
  else if readLE bs 0 4 ≠ MAGIC then (false, { out with magic := readLE bs 0 4 })
  else if 0 < (decodeFloats (bs.drop HEADER_SIZE)).length then
    (true, { out with
      magic := readLE bs 0 4
      sampleRate := readLE bs 4 4
      numChannels := readLE bs 8 2
      numSamples := readLE bs 10 4
      timestamp := readLE bs 14 8
      sequenceNumber := readLE bs 22 4
      audioData := decodeFloats (bs.drop HEADER_SIZE) })
  else
    (true, { out with
      magic := readLE bs 0 4
      sampleRate := readLE bs 4 4
      numChannels := readLE bs 8 2
      numSamples := readLE bs 10 4
      timestamp := readLE bs 14 8
      sequenceNumber := readLE bs 22 4 })

/-- The serialized payload of a packet. -/
def payload (p : AudioPacket) : List Nat := (p.audioData.map (leBytes 4)).flatten

/-! ## The ring buffer (`ThreadSafeFIFO.h` over `juce::AbstractFifo`)

In-memory samples are exact rationals; the FIFO state carries the two
`juce::AbstractFifo` indices (`validStart` for the reader, `validEnd`
for the writer), the channel-major sample store, and the overrun and
underrun counters. -/

/-- A `juce::AudioBuffer<float>` handed to `push`/`pop`: channel-major
sample data with its declared channel and sample counts. -/
structure AudioBlock where
  numChannels : Nat
  numSamples : Nat
  data : List (List ℚ)
  deriving Repr, DecidableEq

/-- State of a `ThreadSafeFIFO`: the `juce::AbstractFifo` bookkeeping
(`bufferSize`, `validStart`, `validEnd`), the sample store, and the
counters. -/
structure FIFOState where
  bufferSize : Nat
  numChannels : Nat
  buffer : List (List ℚ)
  validStart : Nat
  validEnd : Nat
  overruns : Nat
  underruns : Nat
  deriving Repr, DecidableEq

/-- `juce::AbstractFifo::getNumReady`. -/
def getNumReady (f : FIFOState) : Nat :=
  if f.validStart ≤ f.validEnd then f.validEnd - f.validStart
  else f.bufferSize - (f.validStart - f.validEnd)

/-- `juce::AbstractFifo::getFreeSpace = bufferSize - getNumReady() - 1`. -/
def getFreeSpace (f : FIFOState) : Nat :=
  f.bufferSize - getNumReady f - 1

/-- One channel of `AudioBuffer::copyFrom`:
`dst[destStart + i] := src[srcStart + i]` for `i < len`. -/
def copyChannelRegion : List ℚ → Nat → List ℚ → Nat → Nat → List ℚ
  | dst, _, _, _, 0 => dst
  | dst, dS, src, sS, len + 1 =>
    copyChannelRegion (dst.set dS (src.getD sS 0)) (dS + 1) src (sS + 1) len

/-- The per-channel copy loop of `push`/`pop`: copies a contiguous
region into the first `nCh` channels of the store. -/
def copyRegionAll (buf : List (List ℚ)) (nCh destStart : Nat)
    (src : List (List ℚ)) (srcStart len : Nat) : List (List ℚ) :=
  buf.mapIdx fun ch row =>
    if ch < nCh then copyChannelRegion row destStart (src.getD ch []) srcStart len
    else row

/-- `ThreadSafeFIFO::push`.  Mirrors the source: channel count is the
minimum of the block's and the store's; if `getFreeSpace() <
numSamples` the overrun counter is bumped and the call fails with no
other state change; otherwise the block is written into at most two
contiguous regions (`juce::AbstractFifo::write`) and the write index is
advanced. -/
def FIFOState.push (f : FIFOState) (src : AudioBlock) : Bool × FIFOState :=
  if getFreeSpace f < src.numSamples then
    (false, { f with overruns := f.overruns + 1 })
  else
    let nCh := min src.numChannels f.numChannels
    let toWrite := min src.numSamples (getFreeSpace f)
    let size1 := min (f.bufferSize - f.validEnd) toWrite
    let size2 := min (toWrite - size1) f.validStart
    let buf1 := if 0 < size1 then
        copyRegionAll f.buffer nCh f.validEnd src.data 0 size1
      else f.buffer
    let buf2 := if 0 < size2 then
        copyRegionAll buf1 nCh 0 src.data size1 size2
      else buf1
    let advanced := f.validEnd + (size1 + size2)
    let newEnd := if f.bufferSize ≤ advanced then advanced - f.bufferSize
      else advanced
    (true, { f with buffer := buf2, validEnd := newEnd })

/-- One channel of the `pop` copy: `dst[dstStart + i] := buf[srcStart + i]`. -/
def popRegionAll (dst : List (List ℚ)) (nCh dstStart : Nat)
    (buf : List (List ℚ)) (srcStart len : Nat) : List (List ℚ) :=
  dst.mapIdx fun ch row =>
    if ch < nCh then copyChannelRegion row dstStart (buf.getD ch []) srcStart len
    else row

/-- `ThreadSafeFIFO::pop` into a destination buffer: if `getNumReady()
< numSamples` the underrun counter is bumped and the call fails with no
other state change; otherwise samples are copied out of at most two
contiguous regions (`juce::AbstractFifo::read`) and the read index is
advanced.  Returns the flag, the new FIFO state, and the filled
destination. -/
def FIFOState.pop (f : FIFOState) (dest : AudioBlock) (numSamples : Nat) :
    Bool × FIFOState × AudioBlock :=
  if getNumReady f < numSamples then
    (false, { f with underruns := f.underruns + 1 }, dest)
  else
    let nCh := min dest.numChannels f.numChannels
    let toRead := min numSamples (getNumReady f)
    let size1 := min (f.bufferSize - f.validStart) toRead
    let size2 := min (toRead - size1) f.validEnd
    let d1 := if 0 < size1 then
        popRegionAll dest.data nCh 0 f.buffer f.validStart size1
      else dest.data
    let d2 := if 0 < size2 then
        popRegionAll d1 nCh size1 f.buffer 0 size2
      else d1
    let advanced := f.validStart + (size1 + size2)
    let newStart := if f.bufferSize ≤ advanced then advanced - f.bufferSize
      else advanced
    (true, { f with validStart := newStart }, { dest with data := d2 })

/-- `ThreadSafeFIFO::reset`: zero the indices, clear the store, zero
the counters. -/
def FIFOState.reset (f : FIFOState) : FIFOState :=
  { f with
    validStart := 0
    validEnd := 0
    buffer := f.buffer.map fun row => row.map fun _ => 0
    overruns := 0
    underruns := 0 }

/-- `ThreadSafeFIFO::prepare(numChannels, bufferSizeInSamples)`. -/
def FIFOState.prepare (f : FIFOState) (numChannels bufferSize : Nat) : FIFOState :=
  { f with
    bufferSize := bufferSize
    numChannels := numChannels
    buffer := List.replicate numChannels (List.replicate bufferSize 0)
    validStart := 0
    validEnd := 0 }

/-! ## The sender worker (`NetworkSender.h`)

The model keeps the target configuration (`m_targetIP`/`m_targetPort`,
hosts abstracted to numeric ids), the local snapshot that `run()` takes
of them before entering its loop, and the running flag.  An event trace
drives the state: `runStart` is the thread entry of `run()` (which
copies the configured target under `m_settingsLock` into its locals),
`setTarget` is `NetworkSender::setTarget`, and `tick` is one loop
iteration that obtains a packet and transmits it; a `tick` emits the
destination the datagram is written to. -/

/-- Target-visible state of a `NetworkSender`. -/
structure SenderState where
  targetHost : Nat
  targetPort : Nat
  snapshotHost : Nat
  snapshotPort : Nat
  running : Bool
  deriving Repr, DecidableEq

/-- Events applied to a sender. -/
inductive SenderEv where
  | runStart
  | setTarget (host port : Nat)
  | tick
  deriving Repr, DecidableEq

/-- One event step; a `tick` of a running sender emits the destination
of the transmitted datagram, taken from `run()`'s local snapshot. -/
def senderStep (s : SenderState) : SenderEv → SenderState × Option (Nat × Nat)
  | .runStart =>
    ({ s with
        snapshotHost := s.targetHost
        snapshotPort := s.targetPort
        running := true }, none)
  | .setTarget h p => ({ s with targetHost := h, targetPort := p }, none)
  | .tick => (s, if s.running then some (s.snapshotHost, s.snapshotPort) else none)

/-- Runs a trace of sender events, collecting the destinations of all
transmitted datagrams in order. -/
def runSender (s : SenderState) : List SenderEv → SenderState × List (Nat × Nat)
  | [] => (s, [])
  | e :: evs =>
    let out := (senderStep s e).2
    let rest := runSender (senderStep s e).1 evs
    (rest.1, out.toList ++ rest.2)

/-! ## The stream coordinator (`AudioStreamManager.h`)

The manager owns the FIFO, the sender's running flag (the part of the
`NetworkSender` that `startStreaming`/`stopStreaming` interact with,
with the outcome of the socket bind supplied by the environment), the
lifecycle state, and the counters.  Wall-clock quantities
(`m_streamStartTime` and packet timestamps) are opaque ticks outside
the model. -/

/-- `enum class StreamState`. -/
inductive StreamState where
  | Disconnected
  | Connecting
  | Streaming
  | Error
  deriving Repr, DecidableEq

/-- State of an `AudioStreamManager` (listeners abstracted to ids). -/
structure ManagerState where
  sampleRate : ℚ
  samplesPerBlock : Nat
  numChannels : Nat
  packetSamples : Nat
  fifo : FIFOState
  state : StreamState
  isStreaming : Bool
  silentBlocks : Nat
  sequenceNumber : Nat
  senderRunning : Bool
  listeners : List Nat
  deriving Repr, DecidableEq

/-- The member initializers of `AudioStreamManager` (and of its
`ThreadSafeFIFO`, whose default constructor allocates a 2-channel
65536-sample store). -/
def ManagerState.initial : ManagerState :=
  { sampleRate := 44100
    samplesPerBlock := 512
    numChannels := 2
    packetSamples := 441
    fifo := ⟨65536, 2, List.replicate 2 (List.replicate 65536 0), 0, 0, 0, 0⟩
    state := StreamState.Disconnected
    isStreaming := false
    silentBlocks := 0
    sequenceNumber := 0
    senderRunning := false
    listeners := [] }

/-- `AudioStreamManager::setState`: no-op when the state is unchanged,
otherwise records the transition (and notifies the listeners of the new
state).  Returns the updated manager and the emitted transition. -/
def setState (m : ManagerState) (ns : StreamState) :
    ManagerState × List (StreamState × StreamState) :=
  if m.state = ns then (m, [])
  else ({ m with state := ns }, [(m.state, ns)])

/-- `NetworkSender::start` as seen by the manager: already-running
returns success; otherwise the socket bind (outcome `bindOk`, chosen by
the environment) decides whether the thread is spawned.  Returns the
result and the new running flag. -/
def senderStart (running bindOk : Bool) : Bool × Bool :=
  if running then (true, true)
  else if bindOk then (true, true)
  else (false, false)

/-- `AudioStreamManager::startStreaming`: idempotent when `Streaming`;
otherwise transition to `Connecting`, reset the FIFO and the sequence
counter, start the sender; on failure transition to `Error` and return
false, on success set the streaming flag and transition to
`Streaming`.  Returns (result, manager) and the emitted transitions. -/
def startStreaming (m : ManagerState) (bindOk : Bool) :
    (Bool × ManagerState) × List (StreamState × StreamState) :=
  if m.state = StreamState.Streaming then ((true, m), [])
  else
    let s1 := setState m StreamState.Connecting
    let m2 := { s1.1 with fifo := s1.1.fifo.reset, sequenceNumber := 0 }
    let st := senderStart m2.senderRunning bindOk
    if st.1 = false then
      let s2 := setState m2 StreamState.Error
      ((false, s2.1), s1.2 ++ s2.2)
    else
      let m3 := { m2 with senderRunning := st.2, isStreaming := true }
      let s2 := setState m3 StreamState.Streaming
      ((true, s2.1), s1.2 ++ s2.2)

/-- `AudioStreamManager::stopStreaming`: clear the streaming flag, stop
the sender, reset the FIFO, transition to `Disconnected`. -/
def stopStreaming (m : ManagerState) :
    ManagerState × List (StreamState × StreamState) :=
  setState
    { m with
        isStreaming := false
        senderRunning := false
        fifo := m.fifo.reset }
    StreamState.Disconnected

/-- `AudioStreamManager::prepare`: cache the audio settings, size the
FIFO to `int(sampleRate) * 2` samples, derive the packet granule
`int(sampleRate * 0.01)`. -/
def ManagerState.prepare (m : ManagerState) (sampleRate : ℚ)
    (samplesPerBlock numChannels : Nat) : ManagerState :=
  { m with
    sampleRate := sampleRate
    samplesPerBlock := samplesPerBlock
    numChannels := numChannels
    fifo := m.fifo.prepare numChannels (sampleRate.floor.toNat * 2)
    packetSamples := ((sampleRate / 100).floor).toNat }

/-- The silence threshold of `pushAudioData` (`0.001`, ≈ −60 dBFS). -/
def silenceThreshold : ℚ := 1 / 1000

/-- `juce::AudioBuffer::getMagnitude(ch, 0, numSamples)`: the maximum
absolute sample value of one channel (0 for an empty channel). -/
def channelMagnitude (ch : List ℚ) : ℚ :=
  ch.foldl (fun acc x => max acc |x|) 0

/-- The `maxLevel` loop of `pushAudioData`: maximum of the per-channel
magnitudes, starting from `0.0`. -/
def blockMaxLevel (b : AudioBlock) : ℚ :=
  b.data.foldl (fun acc ch => max acc (channelMagnitude ch)) 0

/-- `AudioStreamManager::pushAudioData`: returns immediately when not
streaming; below the silence threshold bumps the silent-block counter
and drops the block; otherwise zeroes the counter and pushes into the
FIFO. -/
def pushAudioData (m : ManagerState) (b : AudioBlock) : ManagerState :=
  if m.isStreaming = false then m
  else if blockMaxLevel b < silenceThreshold then
    { m with silentBlocks := m.silentBlocks + 1 }
  else
    { m with silentBlocks := 0, fifo := (m.fifo.push b).2 }

/-- `AudioStreamManager::hasAudioSignal`. -/
def hasAudioSignal (m : ManagerState) : Bool :=
  m.silentBlocks < 10

/-- The payload-relevant fields of the packet produced by the fill
callback (the timestamp is wall-clock and outside the model). -/
structure RatPacket where
  sampleRate : Nat
  numChannels : Nat
  numSamples : Nat
  sequenceNumber : Nat
  samples : List ℚ
  deriving Repr, DecidableEq

/-- `AudioPacket::setFromBuffer`'s interleaving:
`audioData[sample * numChannels + channel] = channelData[channel][sample]`. -/
def interleave (channelData : List (List ℚ)) (numChannels numSamples : Nat) :
    List ℚ :=
  ((List.range numSamples).map fun s =>
    (List.range numChannels).map fun ch => (channelData.getD ch []).getD s 0).flatten

/-- `AudioStreamManager::fillPacketFromFIFO`: fails when fewer than
`m_packetSamples` samples are ready; otherwise pops one granule into a
temporary buffer, fills a packet from it, and assigns
`sequenceNumber = m_sequenceNumber++` (a `uint32_t`, so the increment
wraps at `2^32`).  Returns the result flag, the updated manager, and
the produced packet if any. -/
def fillPacketFromFIFO (m : ManagerState) :
    Bool × ManagerState × Option RatPacket :=
  if getNumReady m.fifo < m.packetSamples then (false, m, none)
  else
    let temp : AudioBlock :=
      ⟨m.numChannels, m.packetSamples,
        List.replicate m.numChannels (List.replicate m.packetSamples 0)⟩
    let r := m.fifo.pop temp m.packetSamples
    if r.1 = false then (false, { m with fifo := r.2.1 }, none)
    else
      (true,
        { m with
            fifo := r.2.1
            sequenceNumber := (m.sequenceNumber + 1) % 2 ^ 32 },
        some
          { sampleRate := m.sampleRate.floor.toNat
            numChannels := m.numChannels
            numSamples := m.packetSamples
            sequenceNumber := m.sequenceNumber
            samples := interleave r.2.2.data m.numChannels m.packetSamples })

/-! ### Control-thread operation sequences -/

/-- A control-thread operation on the coordinator. -/
inductive ControlOp where
  | prepareOp (sampleRate : ℚ) (samplesPerBlock numChannels : Nat)
  | startOp (bindOk : Bool)
  | stopOp
  | setTargetOp (host port : Nat)
  | addListenerOp (l : Nat)
  | removeListenerOp (l : Nat)
  deriving Repr, DecidableEq

/-- One control operation; returns the new manager and the state
transitions it emitted. -/
def controlStep (m : ManagerState) :
    ControlOp → ManagerState × List (StreamState × StreamState)
  | .prepareOp sr blk ch => (m.prepare sr blk ch, [])
  | .startOp b => ((startStreaming m b).1.2, (startStreaming m b).2)
  | .stopOp => stopStreaming m
  | .setTargetOp _ _ => (m, [])
  | .addListenerOp l =>
    ({ m with listeners := if l ∈ m.listeners then m.listeners
        else m.listeners ++ [l] }, [])
  | .removeListenerOp l => ({ m with listeners := m.listeners.erase l }, [])

/-- Runs a sequence of control operations, collecting every emitted
state transition in order. -/
def runOps (m : ManagerState) :
    List ControlOp → ManagerState × List (StreamState × StreamState)
  | [] => (m, [])
  | op :: ops =>
    let s := controlStep m op
    let rest := runOps s.1 ops
    (rest.1, s.2 ++ rest.2)

/-- The transition edges drawn in the spec's section 4.4 diagram. -/
def claimedEdges : List (StreamState × StreamState) :=
  [(StreamState.Disconnected, StreamState.Connecting),
   (StreamState.Connecting, StreamState.Streaming),
   (StreamState.Connecting, StreamState.Error),
   (StreamState.Streaming, StreamState.Disconnected)]

/-- The transitions the code can actually emit: the claimed edges plus
restart and stop out of `Error`. -/
def observedEdges : List (StreamState × StreamState) :=
  claimedEdges ++
  [(StreamState.Error, StreamState.Connecting),
   (StreamState.Error, StreamState.Disconnected)]

/-! ### Session traces (for C8) -/

/-- An event of one streaming session: an audio-thread block push or a
sender-thread fill-callback invocation. -/
inductive SessionEv where
  | pushEv (b : AudioBlock)
  | fillEv
  deriving Repr, DecidableEq

/-- Runs a session trace, collecting the packets the fill callback
produced in order. -/
def runSession (m : ManagerState) :
    List SessionEv → ManagerState × List RatPacket
  | [] => (m, [])
  | SessionEv.pushEv b :: evs => runSession (pushAudioData m b) evs
  | SessionEv.fillEv :: evs =>
    let r := fillPacketFromFIFO m
    let rest := runSession r.2.1 evs
    (rest.1, r.2.2.toList ++ rest.2)

/-! ## Theorems -/

theorem leBytes_length (w n : Nat) : (leBytes w n).length = w := by
  induction w generalizing n with
  | zero => rfl
  | succ w ih => simp [leBytes, ih]

theorem leDecode_leBytes (w n : Nat) : leDecode (leBytes w n) = n % 256 ^ w := by
  induction w generalizing n with
  | zero => simp [leBytes, leDecode, Nat.mod_one]
  | succ w ih =>
    simp only [leBytes, leDecode, ih]
    rw [pow_succ, mul_comm (256 ^ w) 256, Nat.mod_mul]

theorem leDecode_leBytes_of_lt {w n : Nat} (h : n < 256 ^ w) :
    leDecode (leBytes w n) = n := by
  rw [leDecode_leBytes, Nat.mod_eq_of_lt h]

theorem leBytes_lt (w n : Nat) : ∀ b ∈ leBytes w n, b < 256 := by
  induction w generalizing n with
  | zero => simp [leBytes]
  | succ w ih =>
    intro b hb
    simp only [leBytes, List.mem_cons] at hb
    rcases hb with h | h
    · omega
    · exact ih _ _ h

theorem leDecode_lt : ∀ (l : List Nat), (∀ b ∈ l, b < 256) →
    leDecode l < 256 ^ l.length := by
  intro l
  induction l with
  | nil => intro _; simp [leDecode]
  | cons b bs ih =>
    intro h
    have hb : b < 256 := h b (List.mem_cons_self _ _)
    have hbs := ih (fun x hx => h x (List.mem_cons_of_mem _ hx))
    simp only [leDecode, List.length_cons, pow_succ]
    calc b + 256 * leDecode bs < 256 + 256 * leDecode bs := by omega
    _ = 256 * (leDecode bs + 1) := by ring
    _ ≤ 256 * 256 ^ bs.length := by
        exact Nat.mul_le_mul_left 256 hbs
    _ = 256 ^ bs.length * 256 := by ring

theorem leBytes_leDecode : ∀ (l : List Nat), (∀ b ∈ l, b < 256) →
    leBytes l.length (leDecode l) = l := by
  intro l
  induction l with
  | nil => intro _; rfl
  | cons b bs ih =>
    intro h
    have hb : b < 256 := h b (List.mem_cons_self _ _)
    have hbs := ih (fun x hx => h x (List.mem_cons_of_mem _ hx))
    simp only [List.length_cons, leBytes, leDecode, List.cons.injEq]
    constructor
    · omega
    · rw [Nat.add_mul_div_left _ _ (by norm_num : (0:Nat) < 256),
        Nat.div_eq_of_lt hb, Nat.zero_add]
      exact hbs

theorem payload_length (l : List Nat) :
    ((l.map (leBytes 4)).flatten).length = 4 * l.length := by
  induction l with
  | nil => rfl
  | cons x xs ih =>
    simp only [List.map_cons, List.flatten_cons, List.length_append,
      leBytes_length, List.length_cons, ih]
    ring

theorem serialize_drop26 (p : AudioPacket) :
    (serialize p).drop 26 = payload p := rfl

theorem readLE_serialize_magic (p : AudioPacket) :
    readLE (serialize p) 0 4 = p.magic % 256 ^ 4 := by
  have h : readLE (serialize p) 0 4 = leDecode (leBytes 4 p.magic) := rfl
  rw [h, leDecode_leBytes]

theorem readLE_serialize_sampleRate (p : AudioPacket) :
    readLE (serialize p) 4 4 = p.sampleRate % 256 ^ 4 := by
  have h : readLE (serialize p) 4 4 = leDecode (leBytes 4 p.sampleRate) := rfl
  rw [h, leDecode_leBytes]

theorem readLE_serialize_numChannels (p : AudioPacket) :
    readLE (serialize p) 8 2 = p.numChannels % 256 ^ 2 := by
  have h : readLE (serialize p) 8 2 = leDecode (leBytes 2 p.numChannels) := rfl
  rw [h, leDecode_leBytes]

theorem readLE_serialize_numSamples (p : AudioPacket) :
    readLE (serialize p) 10 4 = p.numSamples % 256 ^ 4 := by
  have h : readLE (serialize p) 10 4 = leDecode (leBytes 4 p.numSamples) := rfl
  rw [h, leDecode_leBytes]

theorem readLE_serialize_timestamp (p : AudioPacket) :
    readLE (serialize p) 14 8 = p.timestamp % 256 ^ 8 := by
  have h : readLE (serialize p) 14 8 = leDecode (leBytes 8 p.timestamp) := rfl
  rw [h, leDecode_leBytes]

theorem readLE_serialize_sequenceNumber (p : AudioPacket) :
    readLE (serialize p) 22 4 = p.sequenceNumber % 256 ^ 4 := by
  have h : readLE (serialize p) 22 4 = leDecode (leBytes 4 p.sequenceNumber) := rfl
  rw [h, leDecode_leBytes]

theorem serialize_length (p : AudioPacket) :
    (serialize p).length = 26 + 4 * p.audioData.length := by
  unfold serialize
  simp only [List.length_append, leBytes_length, payload_length]

theorem decodeFloats_cons4 (b0 b1 b2 b3 : Nat) (rest : List Nat) :
    decodeFloats (b0 :: b1 :: b2 :: b3 :: rest) =
      leDecode [b0, b1, b2, b3] :: decodeFloats rest := rfl

theorem decodeFloats_leBytes4_append (x : Nat) (rest : List Nat) :
    decodeFloats (leBytes 4 x ++ rest) = (x % 256 ^ 4) :: decodeFloats rest := by
  have h : leBytes 4 x ++ rest =
      x % 256 :: (x / 256 % 256) :: (x / 256 / 256 % 256) ::
      (x / 256 / 256 / 256 % 256) :: rest := rfl
  rw [h, decodeFloats_cons4]
  have h2 : [x % 256, x / 256 % 256, x / 256 / 256 % 256,
      x / 256 / 256 / 256 % 256] = leBytes 4 x := rfl
  rw [h2, leDecode_leBytes]

theorem decodeFloats_payload (l : List Nat) (h : ∀ x ∈ l, x < 2 ^ 32) :
    decodeFloats ((l.map (leBytes 4)).flatten) = l := by
  induction l with
  | nil => rfl
  | cons x xs ih =>
    have hx : x < 2 ^ 32 := h x (List.mem_cons_self _ _)
    have hxs := ih (fun y hy => h y (List.mem_cons_of_mem _ hy))
    simp only [List.map_cons, List.flatten_cons]
    rw [decodeFloats_leBytes4_append, hxs,
      Nat.mod_eq_of_lt (by norm_num at hx ⊢; omega)]

theorem decodeFloats_length : ∀ l : List Nat,
    (decodeFloats l).length = l.length / 4
  | [] => by rw [show decodeFloats [] = ([] : List Nat) from rfl]; simp
  | [a] => by rw [show decodeFloats [a] = ([] : List Nat) from rfl]; simp
  | [a, b] => by rw [show decodeFloats [a, b] = ([] : List Nat) from rfl]; simp
  | [a, b, c] => by
    rw [show decodeFloats [a, b, c] = ([] : List Nat) from rfl]; simp
  | _ :: _ :: _ :: _ :: rest => by
    rw [decodeFloats_cons4]
    simp only [List.length_cons]
    rw [decodeFloats_length rest]
    omega

/-! ### C1: codec round-trip -/

/-- C1 (amended): codec round-trip.  For every packet with
`channels ∈ [1,8]`, `samples ∈ [0,4096]`, audio data of length
`channels * samples`, arbitrary values of the remaining header fields and
the magic field equal to the wire constant `0x4D324730`, deserializing
the serialized bytes into a freshly default-constructed packet succeeds
and reproduces every header field and the full sample vector.
(The amendment: the claim's "any header field values" must exclude
non-`MAGIC` values of the magic field, see the counterexample.) -/
theorem deserialize_serialize_roundtrip (p : AudioPacket) (hwf : p.WF)
    (hm : p.magic = MAGIC)
    (hch : 1 ≤ p.numChannels ∧ p.numChannels ≤ 8)
    (hns : p.numSamples ≤ 4096)
    (hlen : p.audioData.length = p.numChannels * p.numSamples) :
    deserialize (serialize p) AudioPacket.default = (true, p) := by
  obtain ⟨h1, h2, h3, h4, h5, h6, h7⟩ := hwf
  have e4 : (256 : Nat) ^ 4 = 2 ^ 32 := by norm_num
  have e2 : (256 : Nat) ^ 2 = 2 ^ 16 := by norm_num
  have e8 : (256 : Nat) ^ 8 = 2 ^ 64 := by norm_num
  have hnl : ¬ (serialize p).length < HEADER_SIZE := by
    rw [serialize_length]; unfold HEADER_SIZE; omega
  have hmg : readLE (serialize p) 0 4 = MAGIC := by
    rw [readLE_serialize_magic, e4, Nat.mod_eq_of_lt h1, hm]
  have hsr : readLE (serialize p) 4 4 = p.sampleRate := by
    rw [readLE_serialize_sampleRate, e4, Nat.mod_eq_of_lt h2]
  have hc : readLE (serialize p) 8 2 = p.numChannels := by
    rw [readLE_serialize_numChannels, e2, Nat.mod_eq_of_lt h3]
  have hn : readLE (serialize p) 10 4 = p.numSamples := by
    rw [readLE_serialize_numSamples, e4, Nat.mod_eq_of_lt h4]
  have ht : readLE (serialize p) 14 8 = p.timestamp := by
    rw [readLE_serialize_timestamp, e8, Nat.mod_eq_of_lt h5]
  have hq : readLE (serialize p) 22 4 = p.sequenceNumber := by
    rw [readLE_serialize_sequenceNumber, e4, Nat.mod_eq_of_lt h6]
  have hfl : decodeFloats ((serialize p).drop HEADER_SIZE) = p.audioData := by
    unfold HEADER_SIZE
    rw [serialize_drop26]
    exact decodeFloats_payload _ h7
  unfold deserialize
  rw [if_neg hnl, hmg, hsr, hc, hn, ht, hq, hfl]
  rw [if_neg (by simp)]
  obtain ⟨pm, psr, pch, pns, pts, psq, pad⟩ := p
  simp only at hm
  subst hm
  by_cases hd : pad = []
  · subst hd
    rw [if_neg (by simp)]
    rfl
  · rw [if_pos (by simpa using List.length_pos.mpr hd)]

/-- C1 witness: the round-trip theorem applied at a concrete packet. -/
theorem deserialize_serialize_roundtrip_witness :
    deserialize (serialize
      { magic := MAGIC, sampleRate := 48000, numChannels := 2, numSamples := 2,
        timestamp := 123456, sequenceNumber := 7,
        audioData := [1065353216, 0, 3212836864, 1] }) AudioPacket.default =
    (true,
      { magic := MAGIC, sampleRate := 48000, numChannels := 2, numSamples := 2,
        timestamp := 123456, sequenceNumber := 7,
        audioData := [1065353216, 0, 3212836864, 1] }) :=
  deserialize_serialize_roundtrip _ (by decide) (by decide)
    (by decide) (by decide) (by decide)

/-- C1 counterexample: the claim as stated ("any header field values")
fails when the magic field is not the wire constant.  The packet below
meets every stated constraint (`channels = 1 ∈ [1,8]`,
`samples = 0 ∈ [0,4096]`, audio data of length `channels * samples`),
yet deserializing its serialization reports failure rather than
returning the packet. -/
theorem roundtrip_claim_cex :
    (deserialize (serialize
      { magic := 0, sampleRate := 44100, numChannels := 1, numSamples := 0,
        timestamp := 0, sequenceNumber := 0, audioData := [] })
      AudioPacket.default).1 = false := by decide

/-! ### C2: deserialize tolerance -/

/-- C2 (amended): for every input of at least 26 bytes whose first four
bytes decode to the magic constant, `deserialize` succeeds regardless of
whether the payload length equals `4 * channels * samples`; the
resulting sample vector holds `⌊(len − 26) / 4⌋` floats taken from the
start of the payload — truncation is to whole 4-byte floats, not to
whole frames — and when that count is zero the out-packet's sample
vector is left untouched. -/
theorem deserialize_tolerant (bs : List Nat) (out : AudioPacket)
    (hlen : HEADER_SIZE ≤ bs.length)
    (hm : readLE bs 0 4 = MAGIC) :
    (deserialize bs out).1 = true ∧
    (deserialize bs out).2.audioData =
      (if 0 < (bs.length - HEADER_SIZE) / 4
       then decodeFloats (bs.drop HEADER_SIZE) else out.audioData) ∧
    (decodeFloats (bs.drop HEADER_SIZE)).length =
      (bs.length - HEADER_SIZE) / 4 := by
  have hdl : (decodeFloats (bs.drop HEADER_SIZE)).length =
      (bs.length - HEADER_SIZE) / 4 := by
    rw [decodeFloats_length, List.length_drop]
  unfold deserialize
  rw [if_neg (by omega), hm, if_neg (by simp), hdl]
  by_cases h0 : 0 < (bs.length - HEADER_SIZE) / 4
  · rw [if_pos h0, if_pos h0]
    exact ⟨rfl, rfl, rfl⟩
  · rw [if_neg h0, if_neg h0]
    exact ⟨rfl, rfl, rfl⟩

/-- C2 witness: the tolerance theorem applied to a 34-byte input (26-byte
header declaring `channels = 0`, `samples = 0`, plus 8 payload bytes,
so the payload length is not `4 * channels * samples`): deserialization
succeeds and yields `⌊8 / 4⌋ = 2` decoded floats. -/
theorem deserialize_tolerant_witness :
    HEADER_SIZE ≤ (leBytes 4 MAGIC ++ List.replicate 30 0).length ∧
    readLE (leBytes 4 MAGIC ++ List.replicate 30 0) 0 4 = MAGIC ∧
    ((deserialize (leBytes 4 MAGIC ++ List.replicate 30 0)
        AudioPacket.default).1 = true ∧
     (deserialize (leBytes 4 MAGIC ++ List.replicate 30 0)
        AudioPacket.default).2.audioData =
      (if 0 < ((leBytes 4 MAGIC ++ List.replicate 30 0).length -
          HEADER_SIZE) / 4
       then decodeFloats ((leBytes 4 MAGIC ++ List.replicate 30 0).drop
          HEADER_SIZE)
       else AudioPacket.default.audioData) ∧
     (decodeFloats ((leBytes 4 MAGIC ++ List.replicate 30 0).drop
        HEADER_SIZE)).length =
      ((leBytes 4 MAGIC ++ List.replicate 30 0).length - HEADER_SIZE) / 4) :=
  ⟨by decide, by decide,
    deserialize_tolerant _ AudioPacket.default (by decide) (by decide)⟩

/-- C2 counterexample: a short payload is not truncated to whole frames.
The serialized packet below declares `channels = 2`, `samples = 3`
(expected payload `24` bytes) but carries only `12` payload bytes;
deserialization succeeds and produces a 3-float sample vector, which is
not a multiple of the channel count 2. -/
theorem deserialize_whole_frames_cex :
    (deserialize (serialize
      { magic := MAGIC, sampleRate := 44100, numChannels := 2, numSamples := 3,
        timestamp := 0, sequenceNumber := 0, audioData := [0, 0, 0] })
      AudioPacket.default).1 = true ∧
    (deserialize (serialize
      { magic := MAGIC, sampleRate := 44100, numChannels := 2, numSamples := 3,
        timestamp := 0, sequenceNumber := 0, audioData := [0, 0, 0] })
      AudioPacket.default).2.numChannels = 2 ∧
    (deserialize (serialize
      { magic := MAGIC, sampleRate := 44100, numChannels := 2, numSamples := 3,
        timestamp := 0, sequenceNumber := 0, audioData := [0, 0, 0] })
      AudioPacket.default).2.audioData.length % 2 = 1 := by decide

/-! ### C7: deserialize rejection -/

/-- C7: `deserialize` rejects every input shorter than 26 bytes, and
every input of at least 26 bytes whose first four bytes differ from the
little-endian encoding of the magic constant `0x4D324730`. -/
theorem deserialize_rejects (bs : List Nat) (out : AudioPacket)
    (hbytes : ∀ b ∈ bs, b < 256)
    (h : bs.length < HEADER_SIZE ∨
      (HEADER_SIZE ≤ bs.length ∧ bs.take 4 ≠ leBytes 4 MAGIC)) :
    (deserialize bs out).1 = false := by
  rcases h with h | ⟨hge, hne⟩
  · unfold deserialize
    rw [if_pos h]
  · have hm : readLE bs 0 4 ≠ MAGIC := by
      intro hEq
      apply hne
      have hlen4 : (bs.take 4).length = 4 := by
        rw [List.length_take]
        unfold HEADER_SIZE at hge
        omega
      have hb4 : ∀ b ∈ bs.take 4, b < 256 :=
        fun b hb => hbytes b (List.take_subset 4 bs hb)
      have := leBytes_leDecode (bs.take 4) hb4
      rw [hlen4] at this
      unfold readLE at hEq
      rw [List.drop_zero] at hEq
      rw [← this, hEq]
    unfold deserialize
    rw [if_neg (by omega), if_pos hm]

/-- C7 witness: the rejection theorem applied to an input that is long
enough but begins with four zero bytes. -/
theorem deserialize_rejects_witness :
    (∀ b ∈ List.replicate 26 0, b < 256) ∧
    HEADER_SIZE ≤ (List.replicate 26 0).length ∧
    (List.replicate 26 0).take 4 ≠ leBytes 4 MAGIC ∧
    (deserialize (List.replicate 26 0) AudioPacket.default).1 = false :=
  ⟨by decide, by decide, by decide,
    deserialize_rejects _ AudioPacket.default (by decide)
      (Or.inr ⟨by decide, by decide⟩)⟩

/-! ### C10: deserialize is not atomic on magic mismatch -/

/-- C10: on an input of at least 26 bytes whose leading four bytes do
not decode to the magic constant, `deserialize` returns failure but has
already overwritten the out-packet's magic field with the decoded value
of those four input bytes; every other field of the out-packet is left
unchanged. -/
theorem deserialize_magic_mutation (bs : List Nat) (out : AudioPacket)
    (hge : HEADER_SIZE ≤ bs.length)
    (hm : readLE bs 0 4 ≠ MAGIC) :
    deserialize bs out = (false, { out with magic := readLE bs 0 4 }) := by
  unfold deserialize
  rw [if_neg (by omega), if_pos hm]

/-- C10 witness: the mutation theorem applied to a 26-byte all-zero
input; the default out-packet comes back with its magic field zeroed
and every other field intact. -/
theorem deserialize_magic_mutation_witness :
    HEADER_SIZE ≤ (List.replicate 26 0).length ∧
    readLE (List.replicate 26 0) 0 4 ≠ MAGIC ∧
    deserialize (List.replicate 26 0) AudioPacket.default =
      (false, { AudioPacket.default with
                  magic := readLE (List.replicate 26 0) 0 4 }) :=
  ⟨by decide, by decide,
    deserialize_magic_mutation _ AudioPacket.default (by decide) (by decide)⟩

/-! ### C5: ring push rejection is atomic -/

/-- C5: when the block's sample count exceeds the free space,
`push` increments the overrun counter by exactly one and fails, leaving
the store, the write index, the read index and the underrun counter
unchanged; when free space suffices, `push` succeeds and leaves the
overrun counter untouched. -/
theorem push_overrun_atomic (f : FIFOState) (src : AudioBlock) :
    (getFreeSpace f < src.numSamples →
      f.push src = (false, { f with overruns := f.overruns + 1 })) ∧
    (src.numSamples ≤ getFreeSpace f →
      (f.push src).1 = true ∧ (f.push src).2.overruns = f.overruns ∧
      (f.push src).2.validStart = f.validStart ∧
      (f.push src).2.underruns = f.underruns) := by
  constructor
  · intro h
    unfold FIFOState.push
    rw [if_pos h]
  · intro h
    unfold FIFOState.push
    rw [if_neg (by omega)]
    exact ⟨rfl, rfl, rfl, rfl⟩

/-- C5 witness: both branches of the atomicity theorem evaluated on a
concrete four-slot ring; a 5-sample block is rejected with one overrun
and no other change, a 2-sample block is accepted without touching the
counter. -/
theorem push_overrun_atomic_witness :
    (getFreeSpace ⟨4, 1, [[0, 0, 0, 0]], 0, 0, 0, 0⟩ <
        (AudioBlock.mk 1 5 [[1, 1, 1, 1, 1]]).numSamples ∧
      FIFOState.push ⟨4, 1, [[0, 0, 0, 0]], 0, 0, 0, 0⟩
          (AudioBlock.mk 1 5 [[1, 1, 1, 1, 1]]) =
        (false, ⟨4, 1, [[0, 0, 0, 0]], 0, 0, 1, 0⟩)) ∧
    ((AudioBlock.mk 1 2 [[1, 1]]).numSamples ≤
        getFreeSpace ⟨4, 1, [[0, 0, 0, 0]], 0, 0, 0, 0⟩ ∧
      (FIFOState.push ⟨4, 1, [[0, 0, 0, 0]], 0, 0, 0, 0⟩
          (AudioBlock.mk 1 2 [[1, 1]])).1 = true ∧
      (FIFOState.push ⟨4, 1, [[0, 0, 0, 0]], 0, 0, 0, 0⟩
          (AudioBlock.mk 1 2 [[1, 1]])).2.overruns = 0 ∧
      (FIFOState.push ⟨4, 1, [[0, 0, 0, 0]], 0, 0, 0, 0⟩
          (AudioBlock.mk 1 2 [[1, 1]])).2.validStart = 0 ∧
      (FIFOState.push ⟨4, 1, [[0, 0, 0, 0]], 0, 0, 0, 0⟩
          (AudioBlock.mk 1 2 [[1, 1]])).2.underruns = 0) :=
  ⟨⟨by decide,
    (push_overrun_atomic ⟨4, 1, [[0, 0, 0, 0]], 0, 0, 0, 0⟩
      (AudioBlock.mk 1 5 [[1, 1, 1, 1, 1]])).1 (by decide)⟩,
   ⟨by decide,
    (push_overrun_atomic ⟨4, 1, [[0, 0, 0, 0]], 0, 0, 0, 0⟩
      (AudioBlock.mk 1 2 [[1, 1]])).2 (by decide)⟩⟩

/-! ### C3: target change mid-stream -/

theorem runSender_snapshot (evs : List SenderEv) :
    ∀ (s : SenderState), SenderEv.runStart ∉ evs →
    ∀ d ∈ (runSender s evs).2, d = (s.snapshotHost, s.snapshotPort) := by
  induction evs with
  | nil => intro s _ d hd; simp [runSender] at hd
  | cons e evs ih =>
    intro s h d hd
    have he : e ≠ SenderEv.runStart := fun hEq => h (hEq ▸ List.mem_cons_self _ _)
    have hrest : SenderEv.runStart ∉ evs :=
      fun hm => h (List.mem_cons_of_mem _ hm)
    cases e with
    | runStart => exact absurd rfl he
    | setTarget hO pO =>
      simp only [runSender, senderStep, Option.toList, List.nil_append] at hd
      exact ih { s with targetHost := hO, targetPort := pO } hrest d hd
    | tick =>
      simp only [runSender, senderStep] at hd
      by_cases hr : s.running
      · rw [if_pos hr] at hd
        simp only [Option.toList, List.cons_append, List.nil_append,
          List.mem_cons] at hd
        rcases hd with hd | hd
        · exact hd
        · exact ih _ hrest d hd
      · rw [if_neg hr] at hd
        simp only [Option.toList, List.nil_append] at hd
        exact ih _ hrest d hd

/-- C3 (amended): the run loop snapshots the configured target once, at
thread start, under the settings lock; every datagram of that run is
sent to this snapshot.  A `set_target` issued while the stream runs
therefore never affects the packets of the current run — the new target
takes effect only at the next start. -/
theorem run_uses_start_snapshot (s : SenderState) (evs : List SenderEv)
    (h : SenderEv.runStart ∉ evs) :
    ∀ d ∈ (runSender ((senderStep s SenderEv.runStart).1) evs).2,
      d = (s.targetHost, s.targetPort) := by
  intro d hd
  exact runSender_snapshot evs _ h d hd

/-- C3 witness: the snapshot theorem applied to a concrete run in which
the target is changed mid-stream and a packet is then transmitted: it
still goes to the target configured at start, `(5, 6)`. -/
theorem run_uses_start_snapshot_witness :
    SenderEv.runStart ∉ [SenderEv.setTarget 1 1, SenderEv.tick] ∧
    ∀ d ∈ (runSender ((senderStep (SenderState.mk 5 6 0 0 false)
        SenderEv.runStart).1) [SenderEv.setTarget 1 1, SenderEv.tick]).2,
      d = (5, 6) :=
  ⟨by decide,
    run_uses_start_snapshot (SenderState.mk 5 6 0 0 false)
      [SenderEv.setTarget 1 1, SenderEv.tick] (by decide)⟩

/-- C3 counterexample: the claim as stated is false.  With target
`(0, 0)` configured, the thread started, then `set_target (1, 1)`
called, both of the next two ticks (well past one send interval) still
transmit to `(0, 0)`; no packet is sent to `(1, 1)`.  `run()` reads
`m_targetIP`/`m_targetPort` once before its loop, not per tick. -/
theorem setTarget_midstream_cex :
    (runSender (SenderState.mk 0 0 0 0 false)
      [SenderEv.runStart, SenderEv.setTarget 1 1, SenderEv.tick,
        SenderEv.tick]).2 = [(0, 0), (0, 0)] ∧
    (1, 1) ∉ (runSender (SenderState.mk 0 0 0 0 false)
      [SenderEv.runStart, SenderEv.setTarget 1 1, SenderEv.tick,
        SenderEv.tick]).2 := by decide

/-! ### C4: state machine closure -/

theorem stopStreaming_spec (m : ManagerState) :
    (stopStreaming m).2 = (if m.state = StreamState.Disconnected then []
      else [(m.state, StreamState.Disconnected)]) ∧
    (stopStreaming m).1.state = StreamState.Disconnected := by
  by_cases hD : m.state = StreamState.Disconnected
  · simp [stopStreaming, setState, hD]
  · simp [stopStreaming, setState, hD]

theorem startStreaming_spec (m : ManagerState) (b : Bool)
    (h : m.state ≠ StreamState.Connecting)
    (hS : m.state ≠ StreamState.Streaming) :
    (startStreaming m b).2 = (m.state, StreamState.Connecting) ::
      (if (senderStart m.senderRunning b).1 = false
       then [(StreamState.Connecting, StreamState.Error)]
       else [(StreamState.Connecting, StreamState.Streaming)]) ∧
    (startStreaming m b).1.2.state =
      (if (senderStart m.senderRunning b).1 = false
       then StreamState.Error else StreamState.Streaming) := by
  by_cases hb : (senderStart m.senderRunning b).1 = false
  · simp [startStreaming, setState, hS, h, hb]
  · simp [startStreaming, setState, hS, h, hb]

theorem controlStep_edges (m : ManagerState) (op : ControlOp)
    (h : m.state ≠ StreamState.Connecting) :
    (∀ t ∈ (controlStep m op).2, t ∈ observedEdges) ∧
    (controlStep m op).1.state ≠ StreamState.Connecting := by
  cases op with
  | prepareOp sr blk ch =>
    exact ⟨by simp [controlStep], by simpa [controlStep, ManagerState.prepare,
      FIFOState.prepare] using h⟩
  | setTargetOp hO pO => exact ⟨by simp [controlStep], by simpa [controlStep] using h⟩
  | addListenerOp l => exact ⟨by simp [controlStep], by simpa [controlStep] using h⟩
  | removeListenerOp l => exact ⟨by simp [controlStep], by simpa [controlStep] using h⟩
  | stopOp =>
    obtain ⟨h1, h2⟩ := stopStreaming_spec m
    constructor
    · intro t ht
      simp only [controlStep] at ht
      rw [h1] at ht
      by_cases hD : m.state = StreamState.Disconnected
      · rw [if_pos hD] at ht
        simp at ht
      · rw [if_neg hD] at ht
        simp only [List.mem_singleton] at ht
        subst ht
        cases hms : m.state <;> simp_all <;> decide
    · show (stopStreaming m).1.state ≠ StreamState.Connecting
      rw [h2]
      decide
  | startOp b =>
    by_cases hS : m.state = StreamState.Streaming
    · constructor
      · intro t ht
        simp [controlStep, startStreaming, hS] at ht
      · simp [controlStep, startStreaming, hS]
    · obtain ⟨h1, h2⟩ := startStreaming_spec m b h hS
      constructor
      · intro t ht
        simp only [controlStep] at ht
        rw [h1] at ht
        simp only [List.mem_cons] at ht
        rcases ht with ht | ht
        · subst ht
          cases hms : m.state <;> simp_all <;> decide
        · by_cases hb : (senderStart m.senderRunning b).1 = false
          · rw [if_pos hb] at ht
            simp only [List.mem_singleton] at ht
            subst ht
            decide
          · rw [if_neg hb] at ht
            simp only [List.mem_singleton] at ht
            subst ht
            decide
      · show (startStreaming m b).1.2.state ≠ StreamState.Connecting
        rw [h2]
        by_cases hb : (senderStart m.senderRunning b).1 = false
        · rw [if_pos hb]; decide
        · rw [if_neg hb]; decide

/-- C4 (amended): starting from any resting coordinator state (the
state between control operations is never `Connecting`), every state
transition emitted by any sequence of control operations is one of the
section 4.4 edges **plus** the two edges the code also produces:
`Error → Connecting` on a restart and `Error → Disconnected` on a stop
after a failed start. -/
theorem state_machine_closure (ops : List ControlOp) :
    ∀ (m : ManagerState), m.state ≠ StreamState.Connecting →
    ∀ t ∈ (runOps m ops).2, t ∈ observedEdges := by
  induction ops with
  | nil => intro m _ t ht; simp [runOps] at ht
  | cons op ops ih =>
    intro m h t ht
    obtain ⟨hstep, hnext⟩ := controlStep_edges m op h
    simp only [runOps, List.mem_append] at ht
    rcases ht with ht | ht
    · exact hstep t ht
    · exact ih (controlStep m op).1 hnext t ht

/-- C4 witness: the closure theorem applied to a concrete operation
sequence (a failing start, a stop, a successful start, a stop) from a
small `Disconnected` manager. -/
theorem state_machine_closure_witness :
    ((ManagerState.mk 100 16 1 1 ⟨4, 1, [[0, 0, 0, 0]], 0, 0, 0, 0⟩
        StreamState.Disconnected false 0 0 false []).state ≠
      StreamState.Connecting) ∧
    (∀ t ∈ (runOps (ManagerState.mk 100 16 1 1 ⟨4, 1, [[0, 0, 0, 0]], 0, 0, 0, 0⟩
        StreamState.Disconnected false 0 0 false [])
        [ControlOp.startOp false, ControlOp.stopOp, ControlOp.startOp true,
          ControlOp.stopOp]).2, t ∈ observedEdges) :=
  ⟨by decide,
    state_machine_closure
      [ControlOp.startOp false, ControlOp.stopOp, ControlOp.startOp true,
        ControlOp.stopOp]
      (ManagerState.mk 100 16 1 1 ⟨4, 1, [[0, 0, 0, 0]], 0, 0, 0, 0⟩
        StreamState.Disconnected false 0 0 false []) (by decide)⟩

/-- C4 counterexample: the claim as stated is false.  From
`Disconnected`, a start whose socket bind fails followed by a stop
emits the transitions `Disconnected → Connecting`, `Connecting →
Error`, `Error → Disconnected`; the last one is not among the four
edges of the section 4.4 diagram. -/
theorem state_machine_closure_cex :
    (runOps (ManagerState.mk 100 16 1 1 ⟨4, 1, [[0, 0, 0, 0]], 0, 0, 0, 0⟩
        StreamState.Disconnected false 0 0 false [])
      [ControlOp.startOp false, ControlOp.stopOp]).2 =
      [(StreamState.Disconnected, StreamState.Connecting),
       (StreamState.Connecting, StreamState.Error),
       (StreamState.Error, StreamState.Disconnected)] ∧
    (StreamState.Error, StreamState.Disconnected) ∉ claimedEdges := by decide

/-! ### C6: the silence gate -/

theorem foldl_max_init_le {α : Type} (g : α → ℚ) (l : List α) :
    ∀ a : ℚ, a ≤ l.foldl (fun acc x => max acc (g x)) a := by
  induction l with
  | nil => intro a; exact le_refl a
  | cons y ys ih =>
    intro a
    exact le_trans (le_max_left a (g y)) (ih (max a (g y)))

theorem foldl_max_mem_le {α : Type} (g : α → ℚ) (l : List α) (x : α)
    (hx : x ∈ l) : ∀ a : ℚ, g x ≤ l.foldl (fun acc y => max acc (g y)) a := by
  induction l with
  | nil => exact absurd hx (List.not_mem_nil x)
  | cons y ys ih =>
    intro a
    rcases List.mem_cons.mp hx with h | h
    · subst h
      exact le_trans (le_max_right a (g x)) (foldl_max_init_le g ys _)
    · exact ih h _

theorem sample_le_blockMaxLevel (b : AudioBlock) (ch : List ℚ) (x : ℚ)
    (hch : ch ∈ b.data) (hx : x ∈ ch) : |x| ≤ blockMaxLevel b :=
  le_trans (foldl_max_mem_le (fun v => |v|) ch x hx 0)
    (foldl_max_mem_le channelMagnitude b.data ch hch 0)

/-- C6: while streaming, a block whose maximum per-channel magnitude is
below `0.001` only increments the silent-block counter (it never
reaches the ring); a block containing any sample of magnitude at least
`0.001` zeroes the silent-block counter and is pushed into the ring
buffer. -/
theorem silence_gate (m : ManagerState) (b : AudioBlock)
    (h : m.isStreaming = true) :
    (blockMaxLevel b < silenceThreshold →
      pushAudioData m b = { m with silentBlocks := m.silentBlocks + 1 }) ∧
    ((∃ ch ∈ b.data, ∃ x ∈ ch, silenceThreshold ≤ |x|) →
      pushAudioData m b =
        { m with silentBlocks := 0, fifo := (m.fifo.push b).2 }) := by
  constructor
  · intro hlt
    unfold pushAudioData
    rw [if_neg (by simp [h]), if_pos hlt]
  · rintro ⟨ch, hch, x, hx, hge⟩
    have hle : silenceThreshold ≤ blockMaxLevel b :=
      le_trans hge (sample_le_blockMaxLevel b ch x hch hx)
    unfold pushAudioData
    rw [if_neg (by simp [h]), if_neg (not_lt.mpr hle)]

/-- C6 witness: the silence gate evaluated on a streaming manager with
a one-sample silent block (counter bumped, FIFO untouched) and a
one-sample full-scale block (counter zeroed, block pushed). -/
theorem silence_gate_witness :
    (blockMaxLevel (AudioBlock.mk 1 1 [[0]]) < silenceThreshold ∧
      pushAudioData (ManagerState.mk 100 16 1 1 ⟨4, 1, [[0, 0, 0, 0]], 0, 0, 0, 0⟩
          StreamState.Streaming true 3 0 true []) (AudioBlock.mk 1 1 [[0]]) =
        ManagerState.mk 100 16 1 1 ⟨4, 1, [[0, 0, 0, 0]], 0, 0, 0, 0⟩
          StreamState.Streaming true 4 0 true []) ∧
    ((∃ ch ∈ (AudioBlock.mk 1 1 [[1]]).data, ∃ x ∈ ch, silenceThreshold ≤ |x|) ∧
      pushAudioData (ManagerState.mk 100 16 1 1 ⟨4, 1, [[0, 0, 0, 0]], 0, 0, 0, 0⟩
          StreamState.Streaming true 3 0 true []) (AudioBlock.mk 1 1 [[1]]) =
        ManagerState.mk 100 16 1 1
          ((FIFOState.mk 4 1 [[0, 0, 0, 0]] 0 0 0 0).push
            (AudioBlock.mk 1 1 [[1]])).2
          StreamState.Streaming true 0 0 true []) :=
  by
  have hsilent : blockMaxLevel (AudioBlock.mk 1 1 [[0]]) < silenceThreshold := by
    norm_num [blockMaxLevel, channelMagnitude, silenceThreshold,
      List.foldl_cons, List.foldl_nil]
  have hloud : ∃ ch ∈ (AudioBlock.mk 1 1 [[1]]).data, ∃ x ∈ ch,
      silenceThreshold ≤ |x| := by
    refine ⟨[1], by simp, 1, by simp, ?_⟩
    rw [abs_one]
    norm_num [silenceThreshold]
  exact ⟨⟨hsilent,
    (silence_gate (ManagerState.mk 100 16 1 1 ⟨4, 1, [[0, 0, 0, 0]], 0, 0, 0, 0⟩
        StreamState.Streaming true 3 0 true []) (AudioBlock.mk 1 1 [[0]])
      rfl).1 hsilent⟩,
   ⟨hloud,
    (silence_gate (ManagerState.mk 100 16 1 1 ⟨4, 1, [[0, 0, 0, 0]], 0, 0, 0, 0⟩
        StreamState.Streaming true 3 0 true []) (AudioBlock.mk 1 1 [[1]])
      rfl).2 hloud⟩⟩

/-! ### C9: push while not streaming is a no-op -/

/-- C9: when the streaming flag is off, `pushAudioData` returns before
the silence check; the manager (silent-block counter, ring contents,
overrun counter) is unchanged, so `hasAudioSignal` keeps reporting the
value determined before the call. -/
theorem pushAudio_not_streaming (m : ManagerState) (b : AudioBlock)
    (h : m.isStreaming = false) :
    pushAudioData m b = m ∧
    hasAudioSignal (pushAudioData m b) = hasAudioSignal m := by
  have heq : pushAudioData m b = m := by
    unfold pushAudioData
    rw [if_pos h]
  exact ⟨heq, by rw [heq]⟩

/-- C9 witness: a loud block pushed into a non-streaming manager whose
silent-block counter is already 12 changes nothing, and
`hasAudioSignal` stays `false`. -/
theorem pushAudio_not_streaming_witness :
    (ManagerState.mk 100 16 1 1 ⟨4, 1, [[0, 0, 0, 0]], 0, 0, 0, 0⟩
        StreamState.Disconnected false 12 0 false []).isStreaming = false ∧
    pushAudioData (ManagerState.mk 100 16 1 1 ⟨4, 1, [[0, 0, 0, 0]], 0, 0, 0, 0⟩
        StreamState.Disconnected false 12 0 false []) (AudioBlock.mk 1 1 [[1]]) =
      ManagerState.mk 100 16 1 1 ⟨4, 1, [[0, 0, 0, 0]], 0, 0, 0, 0⟩
        StreamState.Disconnected false 12 0 false [] ∧
    hasAudioSignal (pushAudioData
      (ManagerState.mk 100 16 1 1 ⟨4, 1, [[0, 0, 0, 0]], 0, 0, 0, 0⟩
        StreamState.Disconnected false 12 0 false [])
      (AudioBlock.mk 1 1 [[1]])) = false :=
  ⟨rfl,
   (pushAudio_not_streaming _ (AudioBlock.mk 1 1 [[1]]) rfl).1,
   by rw [(pushAudio_not_streaming
      (ManagerState.mk 100 16 1 1 ⟨4, 1, [[0, 0, 0, 0]], 0, 0, 0, 0⟩
        StreamState.Disconnected false 12 0 false [])
      (AudioBlock.mk 1 1 [[1]]) rfl).2]; decide⟩

/-! ### C8: sequence semantics -/

theorem pushAudioData_seq (m : ManagerState) (b : AudioBlock) :
    (pushAudioData m b).sequenceNumber = m.sequenceNumber := by
  unfold pushAudioData
  split_ifs <;> rfl

theorem pop_success (f : FIFOState) (dest : AudioBlock) (n : Nat)
    (h : ¬ getNumReady f < n) : (f.pop dest n).1 = true := by
  unfold FIFOState.pop
  rw [if_neg h]

theorem fill_success_spec (m : ManagerState)
    (h : ¬ getNumReady m.fifo < m.packetSamples) :
    fillPacketFromFIFO m =
      (true,
        { m with
            fifo := (m.fifo.pop
              ⟨m.numChannels, m.packetSamples,
                List.replicate m.numChannels
                  (List.replicate m.packetSamples 0)⟩ m.packetSamples).2.1
            sequenceNumber := (m.sequenceNumber + 1) % 2 ^ 32 },
        some
          { sampleRate := m.sampleRate.floor.toNat
            numChannels := m.numChannels
            numSamples := m.packetSamples
            sequenceNumber := m.sequenceNumber
            samples := interleave (m.fifo.pop
              ⟨m.numChannels, m.packetSamples,
                List.replicate m.numChannels
                  (List.replicate m.packetSamples 0)⟩ m.packetSamples).2.2.data
              m.numChannels m.packetSamples }) := by
  have hp := pop_success m.fifo
    ⟨m.numChannels, m.packetSamples,
      List.replicate m.numChannels (List.replicate m.packetSamples 0)⟩
    m.packetSamples h
  unfold fillPacketFromFIFO
  rw [if_neg h, if_neg (by rw [hp]; simp)]

theorem runSession_seq (evs : List SessionEv) :
    ∀ m : ManagerState, m.sequenceNumber < 2 ^ 32 →
    (runSession m evs).2.map RatPacket.sequenceNumber =
      (List.range (runSession m evs).2.length).map
        (fun i => (m.sequenceNumber + i) % 2 ^ 32) := by
  induction evs with
  | nil => intro m _; simp [runSession]
  | cons e evs ih =>
    intro m hm
    cases e with
    | pushEv b =>
      show (runSession (pushAudioData m b) evs).2.map RatPacket.sequenceNumber = _
      rw [ih (pushAudioData m b) (by rw [pushAudioData_seq]; exact hm),
        pushAudioData_seq]
      rfl
    | fillEv =>
      by_cases h1 : getNumReady m.fifo < m.packetSamples
      · have hf : fillPacketFromFIFO m = (false, m, none) := by
          unfold fillPacketFromFIFO
          rw [if_pos h1]
        simp only [runSession, hf, Option.toList, List.nil_append]
        exact ih m hm
      · rw [show runSession m (SessionEv.fillEv :: evs) =
            ((runSession (fillPacketFromFIFO m).2.1 evs).1,
             (fillPacketFromFIFO m).2.2.toList ++
               (runSession (fillPacketFromFIFO m).2.1 evs).2) from rfl]
        rw [fill_success_spec m h1]
        simp only [Option.toList, List.cons_append, List.nil_append,
          List.map_cons, List.length_cons]
        have hlt : (m.sequenceNumber + 1) % 2 ^ 32 < 2 ^ 32 :=
          Nat.mod_lt _ (by norm_num)
        rw [ih _ hlt]
        simp only [List.range_succ_eq_map, List.map_cons, List.map_map,
          List.cons.injEq]
        constructor
        · rw [Nat.add_zero, Nat.mod_eq_of_lt hm]
        · apply List.map_congr_left
          intro i _
          show ((m.sequenceNumber + 1) % 2 ^ 32 + i) % 2 ^ 32 =
            ((m.sequenceNumber + Nat.succ i) % 2 ^ 32)
          rw [Nat.mod_add_mod]
          congr 1
          omega

/-- C8: a (re)start from any non-`Streaming` state resets the sequence
counter to 0, and across the session the successful fill-callback
invocations produce packets whose sequence numbers are exactly
`0, 1, 2, …` reduced modulo `2^32` — the `k`-th successful fill carries
`(k-1) mod 2^32`, regardless of how pushes and failed fills
interleave. -/
theorem sequence_semantics (m : ManagerState) (b : Bool)
    (hm : m.state ≠ StreamState.Streaming) (evs : List SessionEv) :
    ((startStreaming m b).1.2).sequenceNumber = 0 ∧
    (runSession (startStreaming m b).1.2 evs).2.map RatPacket.sequenceNumber =
      (List.range (runSession (startStreaming m b).1.2 evs).2.length).map
        (fun i => i % 2 ^ 32) := by
  have h0 : ((startStreaming m b).1.2).sequenceNumber = 0 := by
    unfold startStreaming
    rw [if_neg hm]
    simp only [setState]
    split_ifs <;> rfl
  refine ⟨h0, ?_⟩
  rw [runSession_seq evs (startStreaming m b).1.2 (by rw [h0]; norm_num), h0]
  simp

/-- C8 witness: from a `Disconnected` manager whose sequence counter is
already 5, a start followed by two push/fill pairs emits packets with
sequence numbers `0 % 2^32` and `1 % 2^32`. -/
theorem sequence_semantics_witness :
    ((ManagerState.mk 100 16 1 1 ⟨4, 1, [[0, 0, 0, 0]], 0, 0, 0, 0⟩
        StreamState.Disconnected false 0 5 false []).state ≠
      StreamState.Streaming) ∧
    ((startStreaming (ManagerState.mk 100 16 1 1 ⟨4, 1, [[0, 0, 0, 0]], 0, 0, 0, 0⟩
        StreamState.Disconnected false 0 5 false []) true).1.2).sequenceNumber
      = 0 ∧
    (runSession (startStreaming
        (ManagerState.mk 100 16 1 1 ⟨4, 1, [[0, 0, 0, 0]], 0, 0, 0, 0⟩
          StreamState.Disconnected false 0 5 false []) true).1.2
      [SessionEv.pushEv (AudioBlock.mk 1 1 [[1]]), SessionEv.fillEv,
        SessionEv.pushEv (AudioBlock.mk 1 1 [[1]]), SessionEv.fillEv]).2.map
      RatPacket.sequenceNumber =
      (List.range (runSession (startStreaming
        (ManagerState.mk 100 16 1 1 ⟨4, 1, [[0, 0, 0, 0]], 0, 0, 0, 0⟩
          StreamState.Disconnected false 0 5 false []) true).1.2
      [SessionEv.pushEv (AudioBlock.mk 1 1 [[1]]), SessionEv.fillEv,
        SessionEv.pushEv (AudioBlock.mk 1 1 [[1]]), SessionEv.fillEv]).2.length).map
        (fun i => i % 2 ^ 32) := by
  refine ⟨by decide, ?_, ?_⟩
  · exact (sequence_semantics
      (ManagerState.mk 100 16 1 1 ⟨4, 1, [[0, 0, 0, 0]], 0, 0, 0, 0⟩
        StreamState.Disconnected false 0 5 false []) true (by decide)
      [SessionEv.pushEv (AudioBlock.mk 1 1 [[1]]), SessionEv.fillEv,
        SessionEv.pushEv (AudioBlock.mk 1 1 [[1]]), SessionEv.fillEv]).1
  · exact (sequence_semantics
      (ManagerState.mk 100 16 1 1 ⟨4, 1, [[0, 0, 0, 0]], 0, 0, 0, 0⟩
        StreamState.Disconnected false 0 5 false []) true (by decide)
      [SessionEv.pushEv (AudioBlock.mk 1 1 [[1]]), SessionEv.fillEv,
        SessionEv.pushEv (AudioBlock.mk 1 1 [[1]]), SessionEv.fillEv]).2

end Mix2Go

